import Mathlib

set_option maxRecDepth 8192

/-!
Shallow embedding of the rewtf-registry validation script
(src/scripts/bin/validate-registry.ts, first document: the variant with the
Flow-ecosystem probes and optional wallets).  JavaScript values parsed from
YAML / JSON are modelled by the inductive type Value; the Octokit client is
modelled by an Oracle record of response functions; the mutable field
this.errors is modelled by returning the list of errors each routine appends
(the routines never read the accumulated errors, so the instance state is
recovered by concatenation, made explicit in validateRegistry).
-/

namespace RewtfRegistry

/-- A JavaScript value as produced by yaml.load or JSON.parse. -/
inductive Value where
  | str (s : String)
  | num (n : Int)
  | boolV (b : Bool)
  | nullV
  | arr (elems : List Value)
  | obj (fields : List (String × Value))

/-- JavaScript truthiness of a value. -/
def truthy : Value → Bool
  | .str s => !s.data.isEmpty
  | .num n => n != 0
  | .boolV b => b
  | .nullV => false
  | .arr _ => true
  | .obj _ => true

/-- Truthiness of a possibly-undefined value (none models undefined). -/
def truthyOpt : Option Value → Bool
  | none => false
  | some v => truthy v

/-- Property lookup on an object's field list. -/
def lookupField : List (String × Value) → String → Option Value
  | [], _ => none
  | (k, v) :: fs, key => if k = key then some v else lookupField fs key

/-- JavaScript property access obj[key]: undefined (none) on non-objects. -/
def getProp (v : Value) (k : String) : Option Value :=
  match v with
  | .obj fs => lookupField fs k
  | _ => none

/-- Optional-chaining access a?.[k] on a possibly-undefined base. -/
def getPropOpt (v : Option Value) (k : String) : Option Value :=
  match v with
  | none => none
  | some w => getProp w k

/-- typeof v === "object" and v is truthy: the filter used on registry rows
(arrays and objects pass; null is typeof object but falsy). -/
def isEntryCandidate (v : Value) : Bool :=
  truthy v &&
    (match v with
     | .nullV => true
     | .arr _ => true
     | .obj _ => true
     | _ => false)

mutual

/-- JavaScript String(v) coercion, used when a non-string value is
interpolated into an error message. -/
def jsToString : Value → String
  | .str s => s
  | .num n => toString n
  | .boolV b => if b then "true" else "false"
  | .nullV => "null"
  | .arr es => jsArrToString es
  | .obj _ => "[object Object]"

/-- Array.prototype.toString: elements joined with commas, null as empty. -/
def jsArrToString : List Value → String
  | [] => ""
  | [.nullV] => ""
  | [v] => jsToString v
  | .nullV :: rest => "," ++ jsArrToString rest
  | v :: rest => jsToString v ++ "," ++ jsArrToString rest

end

/-- String.prototype.includes, computed on the character lists. -/
def listContainsSub (sub : List Char) : List Char → Bool
  | [] => sub.isEmpty
  | c :: cs => sub.isPrefixOf (c :: cs) || listContainsSub sub cs

/-- s.includes(sub) in JavaScript. -/
def jsIncludes (s sub : String) : Bool :=
  listContainsSub sub.data s.data

/-- Whether p is a prefix of s, computed on the character lists. -/
def strStartsStr (p s : String) : Bool :=
  p.data.isPrefixOf s.data

/-- Whether p is a suffix of s, computed on the character lists. -/
def strEndsStr (p s : String) : Bool :=
  p.data.isSuffixOf s.data

/-- String.prototype.trim: drop leading and trailing whitespace. -/
def jsTrim (s : String) : String :=
  String.mk (((s.data.dropWhile Char.isWhitespace).reverse.dropWhile
    Char.isWhitespace).reverse)

/-- String.prototype.toLowerCase (on the ASCII range the claims exercise). -/
def jsToLower (s : String) : String :=
  String.mk (s.data.map Char.toLower)

/-- The literal part of the repository-URL regex. -/
def ghLit : List Char := "https://github.com/".data

/-- Drop an expected prefix from a character list, or fail. -/
def dropPref : List Char → List Char → Option (List Char)
  | [], l => some l
  | _ :: _, [] => none
  | p :: ps, c :: cs => if p = c then dropPref ps cs else none

/-- One attempt of the regex https:\/\/github\.com\/([^/]+)\/([^/]+) at a
fixed start position: the literal, then a nonempty slash-free owner, a slash,
and a nonempty slash-free repo (both captures greedy, so maximal runs). -/
def tryMatchAt (l : List Char) : Option (String × String) :=
  match dropPref ghLit l with
  | none => none
  | some rest =>
    let ow := rest.takeWhile (fun c => c != '/')
    if ow.isEmpty then none
    else
      match rest.dropWhile (fun c => c != '/') with
      | '/' :: r3 =>
        let rp := r3.takeWhile (fun c => c != '/')
        if rp.isEmpty then none else some (String.mk ow, String.mk rp)
      | _ => none

/-- Unanchored regex search: try every start position, leftmost first. -/
def matchFrom : List Char → Option (String × String)
  | [] => none
  | c :: cs =>
    match tryMatchAt (c :: cs) with
    | some r => some r
    | none => matchFrom cs

/-- url.match(/https:\/\/github\.com\/([^/]+)\/([^/]+)/), returning the two
captured groups on success. -/
def matchGithubUrl (s : String) : Option (String × String) :=
  matchFrom s.data

/-- repo.replace(/\.git$/, ""): strip one trailing ".git" if present. -/
def stripGitSuffix (s : String) : String :=
  if strEndsStr ".git" s then String.mk (s.data.take (s.data.length - 4)) else s

/-- A character matched by the regex class [0-9a-fA-F]. -/
def isHexChar (c : Char) : Bool :=
  c.isDigit || ('a' ≤ c && c ≤ 'f') || ('A' ≤ c && c ≤ 'F')

/-- The regex test ^0x[0-9a-fA-F]{n}$ for a given count n of hex digits. -/
def hexAddrTest (n : Nat) (s : String) : Bool :=
  strStartsStr "0x" s && s.data.length == n + 2 && (s.data.drop 2).all isHexChar

/-- Payload of a 2xx repos.getContent response: a file (with its base64
content already decoded to text), a directory listing (the contained file
names), or something else (no content field, not an array). -/
inductive ContentData where
  | file (content : String)
  | dir (names : List String)
  | other
deriving DecidableEq

/-- The external GitHub service and the JSON parser: one response per query,
an error value modelling a thrown exception. -/
structure Oracle where
  getUser : String → Except Unit Nat
  getRepo : String → String → Except Unit Nat
  getContent : String → String → String → Except Unit (Nat × ContentData)
  jsonParse : String → Option Value

/-- The result record: isValid flag plus the accumulated error strings. -/
structure ValidationResult where
  isValid : Bool
  errors : List String
deriving DecidableEq

/-- validateRequiredFields: presence and shape of name, github and repos
(wallets and x are optional in this variant). -/
def validateRequiredFields (entry : Value) : List String :=
  (if !truthyOpt (getProp entry "name") ||
      !(match getProp entry "name" with | some (.str _) => true | _ => false) then
    ["Missing or invalid 'name' field"]
  else []) ++
  (if !truthyOpt (getProp entry "github") ||
      !(match getProp entry "github" with | some (.arr _) => true | _ => false) ||
      (match getProp entry "github" with | some (.arr es) => es.length == 0 | _ => false) then
    ["Missing or invalid 'github' field - must be a non-empty array"]
  else []) ++
  (if !truthyOpt (getProp entry "repos") ||
      !(match getProp entry "repos" with | some (.arr _) => true | _ => false) ||
      (match getProp entry "repos" with | some (.arr es) => es.length == 0 | _ => false) then
    ["Missing or invalid 'repos' field - must be a non-empty array"]
  else [])

/-- One iteration of the validateGitHubHandles loop: the errors it appends. -/
def processGithubHandle (o : Oracle) (h : Value) : List String :=
  match h with
  | .str s =>
    if jsTrim s = "" then ["Invalid GitHub handle: '" ++ s ++ "'"]
    else
      match o.getUser (jsTrim s) with
      | .error _ => ["GitHub handle '" ++ s ++ "' is not valid or not found"]
      | .ok st =>
        if st != 200 then
          ["GitHub handle '" ++ s ++ "' is not accessible (status: " ++ toString st ++ ")"]
        else []
  | v => ["Invalid GitHub handle: '" ++ jsToString v ++ "'"]

/-- validateGitHubHandles: the errors appended over the whole handle list. -/
def validateGitHubHandles (o : Oracle) : List Value → List String
  | [] => []
  | h :: rest => processGithubHandle o h ++ validateGitHubHandles o rest

/-- The existence lookup for a parsed URL: octokit.repos.get on the trimmed
owner and repo name, with the errors it appends. -/
def repoLookup (o : Oracle) (url owner repoName : String) : List String :=
  match o.getRepo (jsTrim owner) (jsTrim repoName) with
  | .error _ => ["Repository '" ++ url ++ "' is not valid or not found"]
  | .ok st =>
    if st != 200 then
      ["Repository '" ++ url ++ "' is not accessible (status: " ++ toString st ++ ")"]
    else []

/-- One iteration of the validateRepositoryUrls loop: the errors it appends. -/
def processRepoUrl (o : Oracle) (u : Value) : List String :=
  match u with
  | .str s =>
    if jsTrim s = "" then ["Invalid repository URL: '" ++ s ++ "'"]
    else
      match matchGithubUrl s with
      | none => ["Invalid GitHub URL format: '" ++ s ++ "'"]
      | some (ow, rp) => repoLookup o s ow (stripGitSuffix rp)
  | v => ["Invalid repository URL: '" ++ jsToString v ++ "'"]

/-- validateRepositoryUrls: the errors appended over the whole URL list. -/
def validateRepositoryUrls (o : Oracle) : List Value → List String
  | [] => []
  | u :: rest => processRepoUrl o u ++ validateRepositoryUrls o rest

/-- Probe 1: README.md retrievable and its lowercase text mentions
"on flow" or "flow blockchain". -/
def readmeHit (o : Oracle) (ow rn : String) : Bool :=
  match o.getContent ow rn "README.md" with
  | .error _ => false
  | .ok (st, .file c) =>
    st == 200 &&
      (jsIncludes (jsToLower c) "on flow" || jsIncludes (jsToLower c) "flow blockchain")
  | .ok (_, _) => false

/-- The dependency test on a parsed package.json object. -/
def depsHit (pj : Value) : Bool :=
  truthyOpt (getProp pj "dependencies") &&
    (truthyOpt (getPropOpt (getProp pj "dependencies") "@onflow/fcl") ||
     truthyOpt (getPropOpt (getProp pj "dependencies") "@onflow/kit") ||
     truthyOpt (getPropOpt (getProp pj "devDependencies") "@onflow/fcl") ||
     truthyOpt (getPropOpt (getProp pj "devDependencies") "@onflow/kit"))

/-- Probe 2: package.json retrievable, parseable, and declaring a Flow
dependency (a JSON.parse throw is caught and fails the probe). -/
def packageHit (o : Oracle) (ow rn : String) : Bool :=
  match o.getContent ow rn "package.json" with
  | .error _ => false
  | .ok (st, .file c) =>
    if st == 200 then
      match o.jsonParse c with
      | none => false
      | some pj => depsHit pj
    else false
  | .ok (_, _) => false

/-- Probe 3: go.mod retrievable and mentioning the Flow Go SDK module path. -/
def goModHit (o : Oracle) (ow rn : String) : Bool :=
  match o.getContent ow rn "go.mod" with
  | .error _ => false
  | .ok (st, .file c) =>
    st == 200 &&
      (jsIncludes c "github.com/onflow/flow-go-sdk" ||
       jsIncludes c "github.com/onflow/flow-go")
  | .ok (_, _) => false

/-- The inner loop of probe 4: only files named hardhat.config.js or
hardhat.config.ts are fetched and scanned for the Flow EVM endpoint. -/
def hardhatLoop (o : Oracle) (ow rn : String) : List String → Bool
  | [] => false
  | name :: rest =>
    if name = "hardhat.config.js" || name = "hardhat.config.ts" then
      match o.getContent ow rn name with
      | .error _ => hardhatLoop o ow rn rest
      | .ok (st, .file c) =>
        if st == 200 && jsIncludes c "evm.nodes.onflow.org" then true
        else hardhatLoop o ow rn rest
      | .ok (_, _) => hardhatLoop o ow rn rest
    else hardhatLoop o ow rn rest

/-- Probe 4: list the repository root; if some recognized Solidity config
file name is present, run the hardhat-file loop over the listing. -/
def solidityHit (o : Oracle) (ow rn : String) : Bool :=
  match o.getContent ow rn "" with
  | .error _ => false
  | .ok (st, .dir names) =>
    if st == 200 then
      if names.any (fun n =>
          n = "hardhat.config.js" || n = "hardhat.config.ts" ||
          n = "truffle-config.js" || n = "foundry.toml") then
        hardhatLoop o ow rn names
      else false
    else false
  | .ok (_, _) => false

/-- The ecosystem-requirement error appended for a failing repository. -/
def ecoErrMsg (url : String) : String :=
  "Repository '" ++ url ++
    "' does not meet Flow ecosystem requirements. It must either: 1) Clearly state \"Built on Flow\" in README.md, or 2) Include Flow components (@onflow/fcl, @onflow/kit, Flow Go SDK, or Flow EVM endpoints)"

/-- validateFlowEcosystemRequirements: the errors appended over the URL
list.  A README or hardhat-config hit executes a return statement, ending
the whole loop; package.json and go.mod hits continue with the next URL;
a URL that fails all four probes appends the ecosystem error; a non-string
URL throws on url.match, which the per-URL catch swallows. -/
def validateFlowEcosystemRequirements (o : Oracle) : List Value → List String
  | [] => []
  | u :: rest =>
    match u with
    | .str s =>
      match matchGithubUrl s with
      | none => validateFlowEcosystemRequirements o rest
      | some (ow0, rp0) =>
        let ow := jsTrim ow0
        let rn := jsTrim (stripGitSuffix rp0)
        if readmeHit o ow rn then []
        else if packageHit o ow rn then validateFlowEcosystemRequirements o rest
        else if goModHit o ow rn then validateFlowEcosystemRequirements o rest
        else if solidityHit o ow rn then []
        else ecoErrMsg s :: validateFlowEcosystemRequirements o rest
    | _ => validateFlowEcosystemRequirements o rest

/-- The EVM wallet-address error for a (trimmed) address string. -/
def evmErrMsg (a : String) : String :=
  "Invalid EVM wallet address: '" ++ a ++
    "' - must start with 0x and be 42 characters long (0x + 40 hex chars)"

/-- The Flow wallet-address error for a (trimmed) address string. -/
def flowErrMsg (a : String) : String :=
  "Invalid Flow wallet address: '" ++ a ++
    "' - must start with 0x and be 18 characters long (0x + 16 hex chars)"

/-- The evm branch of validateWalletAddresses: entered only when
wallets.evm is a truthy string; the address is trimmed before testing. -/
def evmCheckErrors (wallets : Value) : List String :=
  match getProp wallets "evm" with
  | some (.str s) =>
    if !s.data.isEmpty then
      let a := jsTrim s
      if !strStartsStr "0x" a || a.data.length != 42 || !hexAddrTest 40 a then
        [evmErrMsg a]
      else []
    else []
  | _ => []

/-- The flow branch of validateWalletAddresses. -/
def flowCheckErrors (wallets : Value) : List String :=
  match getProp wallets "flow" with
  | some (.str s) =>
    if !s.data.isEmpty then
      let a := jsTrim s
      if !strStartsStr "0x" a || a.data.length != 18 || !hexAddrTest 16 a then
        [flowErrMsg a]
      else []
    else []
  | _ => []

/-- validateWalletAddresses: the evm branch then the flow branch. -/
def validateWalletAddresses (wallets : Value) : List String :=
  evmCheckErrors wallets ++ flowCheckErrors wallets

/-- validateXHandles: each x handle must be a non-blank string. -/
def validateXHandles : List Value → List String
  | [] => []
  | .str s :: rest =>
    (if jsTrim s = "" then ["Invalid X handle: '" ++ s ++ "'"] else []) ++
      validateXHandles rest
  | v :: rest => ("Invalid X handle: '" ++ jsToString v ++ "'") :: validateXHandles rest

/-- The per-entry part of validateRegistry: the errors appended for the
entry under test, in the order the checks run. -/
def validateEntry (o : Oracle) (entry : Value) : List String :=
  validateRequiredFields entry ++
  (match getProp entry "github" with
   | some (.arr hs) => validateGitHubHandles o hs
   | _ => []) ++
  (match getProp entry "repos" with
   | some (.arr us) =>
     validateRepositoryUrls o us ++ validateFlowEcosystemRequirements o us
   | _ => []) ++
  (match getProp entry "wallets" with
   | some w => if truthy w then validateWalletAddresses w else []
   | none => []) ++
  (match getProp entry "x" with
   | some (.arr xs) => validateXHandles xs
   | _ => [])

/-- validateRegistry.  The input models the outcome of readFileSync plus
yaml.load plus the use of the result as an array: an error value carries the
stringified exception.  errs0 is the instance state this.errors at call
time; the result aliases the grown state, and isValid tests its length. -/
def validateRegistry (o : Oracle) (input : Except String (List Value))
    (errs0 : List String) : ValidationResult :=
  match input with
  | .error e => ⟨false, errs0 ++ ["Failed to parse registry file: " ++ e]⟩
  | .ok data =>
    match (data.filter isEntryCandidate).getLast? with
    | none => ⟨false, errs0 ++ ["No valid registry entries found"]⟩
    | some entry =>
      let es := errs0 ++ validateEntry o entry
      ⟨es.isEmpty, es⟩

/-- Refinement comparison point, following the spec's words rather than the
source: the WHOLE string matches the shape https://github.com/owner/repo
with owner and repo nonempty and slash-free (an optional trailing .git is
part of the repo segment). -/
def specWholeUrlShape (s : String) : Bool :=
  match dropPref ghLit s.data with
  | none => false
  | some rest =>
    let ow := rest.takeWhile (fun c => c != '/')
    match rest.dropWhile (fun c => c != '/') with
    | '/' :: r3 => !ow.isEmpty && !r3.isEmpty && r3.all (fun c => c != '/')
    | _ => false

/-- The string contains, anywhere, a substring of the form
https://github.com/owner/repo with owner nonempty and slash-free followed
by a slash and at least one further non-slash character: exactly the
condition under which the unanchored source regex finds a match. -/
def containsGithubPattern (s : String) : Prop :=
  ∃ pre ow c suf, s.data = pre ++ ghLit ++ ow ++ '/' :: c :: suf ∧
    ow ≠ [] ∧ (∀ x ∈ ow, x ≠ '/') ∧ c ≠ '/'

/-- Recognizer for the EVM wallet-address error messages. -/
def isEvmAddrErr (e : String) : Bool :=
  strStartsStr "Invalid EVM wallet address:" e

/-- The inputs on which validateRegistry fails as a whole: the parse threw
(or its result was unusable as an array), or the parsed sequence holds no
truthy object-typed record. -/
def noUsableEntries : Except String (List Value) → Prop
  | .error _ => True
  | .ok data => data.filter isEntryCandidate = []

/-- An external service on which every request throws. -/
def errOracle : Oracle where
  getUser := fun _ => .error ()
  getRepo := fun _ _ => .error ()
  getContent := fun _ _ _ => .error ()
  jsonParse := fun _ => none

/-- An external service where users and repositories exist and every README
mentions being built on flow. -/
def okOracle : Oracle where
  getUser := fun _ => .ok 200
  getRepo := fun _ _ => .ok 200
  getContent := fun _ _ p =>
    if p = "README.md" then .ok (200, .file "built on flow") else .error ()
  jsonParse := fun _ => none

/-- An external service where only the repository a/b has a README, and
that README mentions Flow; everything else throws. -/
def readmeOnlyOracle : Oracle where
  getUser := fun _ => .error ()
  getRepo := fun _ _ => .error ()
  getContent := fun ow rn p =>
    if ow = "a" && rn = "b" && p = "README.md" then
      .ok (200, .file "Built on Flow")
    else .error ()
  jsonParse := fun _ => none

/-- An external service for repository a/b whose root listing holds a
foundry.toml that configures the Flow public EVM endpoint; README.md,
package.json and go.mod are absent. -/
def foundryOracle : Oracle where
  getUser := fun _ => .error ()
  getRepo := fun _ _ => .error ()
  getContent := fun _ _ p =>
    if p = "" then .ok (200, .dir ["foundry.toml", "src"])
    else if p = "foundry.toml" then
      .ok (200, .file "rpc = https://evm.nodes.onflow.org")
    else .error ()
  jsonParse := fun _ => none

/-- A registry entry that is fully valid except for a malformed EVM wallet
address 0x123. -/
def entryEvm123 : Value :=
  .obj [("name", .str "Team"),
        ("github", .arr [.str "alice"]),
        ("repos", .arr [.str "https://github.com/acme/widget"]),
        ("wallets", .obj [("evm", .str "0x123"), ("flow", .str "0x0000000000000001")])]

/-! Theorems. -/

/-- Helper: a call started with instance state errs0 returns exactly errs0
followed by the errors the call itself appends. -/
theorem validateRegistry_errors_shift (o : Oracle) (input : Except String (List Value))
    (errs0 : List String) :
    (validateRegistry o input errs0).errors
      = errs0 ++ (validateRegistry o input []).errors := by
  cases input with
  | error e => simp [validateRegistry]
  | ok data =>
    simp only [validateRegistry]
    cases h : (data.filter isEntryCandidate).getLast? with
    | none => simp
    | some entry => simp

/-- C1: with a two-URL repos list whose first URL passes the README probe,
the source executes a return statement that ends the whole ecosystem loop,
so the second URL is never checked and receives no error, although checked
alone it fails the requirement. -/
theorem readme_hit_returns_skipping_rest :
    validateFlowEcosystemRequirements readmeOnlyOracle
        [Value.str "https://github.com/a/b", Value.str "https://github.com/c/d"] = [] ∧
      validateFlowEcosystemRequirements readmeOnlyOracle
        [Value.str "https://github.com/c/d"]
        = [ecoErrMsg "https://github.com/c/d"] := by
  constructor <;> decide

/-- C2: a repository whose root listing holds a foundry.toml configuring
the Flow public EVM endpoint still gets the ecosystem error: the fourth
probe recognizes foundry.toml in the listing but only ever fetches files
named hardhat.config.js or hardhat.config.ts, never foundry.toml, even
though the served foundry.toml content contains the endpoint substring. -/
theorem foundry_config_not_fetched :
    validateFlowEcosystemRequirements foundryOracle
        [Value.str "https://github.com/a/b"] = [ecoErrMsg "https://github.com/a/b"] ∧
      (match foundryOracle.getContent "a" "b" "" with
       | .ok (st, .dir names) => st == 200 && names.contains "foundry.toml"
       | _ => false) = true ∧
      (match foundryOracle.getContent "a" "b" "foundry.toml" with
       | .ok (st, .file c) => st == 200 && jsIncludes c "evm.nodes.onflow.org"
       | _ => false) = true := by
  refine ⟨by decide, by decide, by decide⟩

/-- C5: on every path (parse failure, no usable entries, and the normal
path) the validity flag is true exactly when the error sequence is empty. -/
theorem result_valid_iff_errors_empty (o : Oracle)
    (input : Except String (List Value)) (errs0 : List String) :
    (validateRegistry o input errs0).isValid = true ↔
      (validateRegistry o input errs0).errors = [] := by
  cases input with
  | error e => simp [validateRegistry]
  | ok data =>
    simp only [validateRegistry]
    cases h : (data.filter isEntryCandidate).getLast? with
    | none => simp
    | some entry => simp [List.isEmpty_iff]

/-- C6: the validation result depends only on the last truthy object-typed
record of the parsed sequence; two parsed inputs sharing that last record
validate identically under the same external responses. -/
theorem result_depends_only_on_last_entry (o : Oracle) (d1 d2 : List Value)
    (e : Value) (errs0 : List String)
    (h1 : (d1.filter isEntryCandidate).getLast? = some e)
    (h2 : (d2.filter isEntryCandidate).getLast? = some e) :
    validateRegistry o (.ok d1) errs0 = validateRegistry o (.ok d2) errs0 := by
  simp only [validateRegistry]
  rw [h1, h2]

/-- Witness for C6 at two concrete parsed inputs with equal last records. -/
theorem result_depends_only_on_last_entry_witness :
    validateRegistry errOracle
        (.ok [Value.str "junk", Value.obj [("name", Value.str "Other")], Value.obj []]) []
      = validateRegistry errOracle (.ok [Value.obj []]) [] :=
  result_depends_only_on_last_entry errOracle _ _ (Value.obj []) [] rfl rfl

/-- C7: a string repos entry in which the URL regex finds no match appends
exactly one error (the format error whenever the string does not trim to
empty), and the ecosystem pass appends nothing for it and moves on. -/
theorem unparsable_url_one_error_probes_skipped (o : Oracle) (s : String)
    (h : matchGithubUrl s = none) :
    (processRepoUrl o (Value.str s)).length = 1 ∧
      (jsTrim s = "" →
        processRepoUrl o (Value.str s) = ["Invalid repository URL: '" ++ s ++ "'"]) ∧
      (jsTrim s ≠ "" →
        processRepoUrl o (Value.str s) = ["Invalid GitHub URL format: '" ++ s ++ "'"]) ∧
      ∀ rest, validateFlowEcosystemRequirements o (Value.str s :: rest)
        = validateFlowEcosystemRequirements o rest := by
  refine ⟨?_, ?_, ?_, ?_⟩
  · by_cases ht : jsTrim s = ""
    · simp [processRepoUrl, ht]
    · simp [processRepoUrl, ht, h]
  · intro ht; simp [processRepoUrl, ht]
  · intro ht; simp [processRepoUrl, ht, h]
  · intro rest; simp [validateFlowEcosystemRequirements, h]

/-- Witness for C7 at the entry "not-a-url". -/
theorem unparsable_url_witness :
    (processRepoUrl errOracle (Value.str "not-a-url")).length = 1 ∧
      processRepoUrl errOracle (Value.str "not-a-url")
        = ["Invalid GitHub URL format: 'not-a-url'"] ∧
      validateFlowEcosystemRequirements errOracle [Value.str "not-a-url"] = [] := by
  have h := unparsable_url_one_error_probes_skipped errOracle "not-a-url" (by decide)
  exact ⟨h.1, h.2.2.1 (by decide), (h.2.2.2 []).trans rfl⟩

/-- C8: when the parse throws (error input) or the parsed sequence holds no
truthy object-typed record, the run fails with exactly one error. -/
theorem unusable_input_single_error (o : Oracle) (input : Except String (List Value))
    (h : noUsableEntries input) :
    (validateRegistry o input []).isValid = false ∧
      (validateRegistry o input []).errors.length = 1 := by
  cases input with
  | error e => simp [validateRegistry]
  | ok data =>
    have h' : data.filter isEntryCandidate = [] := h
    simp [validateRegistry, h']

/-- Witness for C8 at a parsed sequence with no object-typed records. -/
theorem unusable_input_single_error_witness :
    (validateRegistry errOracle (.ok [Value.str "x", Value.nullV, Value.num 0]) []).isValid
        = false ∧
      (validateRegistry errOracle
          (.ok [Value.str "x", Value.nullV, Value.num 0]) []).errors.length = 1 :=
  unusable_input_single_error errOracle _ rfl

/-- C9: the validator is a function of the input and the external
responses: two services answering every query identically yield identical
results, error strings and ordering included. -/
theorem validator_deterministic (o1 o2 : Oracle)
    (input : Except String (List Value)) (errs0 : List String)
    (hu : ∀ u, o1.getUser u = o2.getUser u)
    (hr : ∀ a b, o1.getRepo a b = o2.getRepo a b)
    (hc : ∀ a b p, o1.getContent a b p = o2.getContent a b p)
    (hj : ∀ s, o1.jsonParse s = o2.jsonParse s) :
    validateRegistry o1 input errs0 = validateRegistry o2 input errs0 := by
  have h : o1 = o2 := by
    obtain ⟨u1, r1, c1, j1⟩ := o1
    obtain ⟨u2, r2, c2, j2⟩ := o2
    simp only at hu hr hc hj
    congr 1
    · exact funext hu
    · exact funext fun a => funext fun b => hr a b
    · exact funext fun a => funext fun b => funext fun p => hc a b p
    · exact funext hj
  rw [h]

/-- Witness for C9 at a concrete service and input. -/
theorem validator_deterministic_witness :
    validateRegistry errOracle (.error "boom") []
      = validateRegistry errOracle (.error "boom") [] :=
  validator_deterministic errOracle errOracle (.error "boom") []
    (fun _ => rfl) (fun _ _ => rfl) (fun _ _ _ => rfl) (fun _ => rfl)

/-- C10: the instance's error list only grows: a call returns its initial
state followed by the newly appended errors, and a second call on the same
instance still carries every error of the first. -/
theorem errors_grow_monotonically (o : Oracle) (input : Except String (List Value))
    (errs0 : List String) :
    (validateRegistry o input errs0).errors
        = errs0 ++ (validateRegistry o input []).errors ∧
      ∀ (o2 : Oracle) (input2 : Except String (List Value)),
        ∃ tail,
          (validateRegistry o2 input2 ((validateRegistry o input errs0).errors)).errors
            = (validateRegistry o input errs0).errors ++ tail := by
  refine ⟨validateRegistry_errors_shift o input errs0, fun o2 input2 => ?_⟩
  exact ⟨_, validateRegistry_errors_shift o2 input2 _⟩

/-- Counterexample to C3 as stated: https://github.com/a/b/c is not of the
whole-string shape, yet the unanchored regex accepts it and the existence
lookup runs (here failing), with no format error. -/
theorem unanchored_match_accepts_overlong_url :
    specWholeUrlShape "https://github.com/a/b/c" = false ∧
      matchGithubUrl "https://github.com/a/b/c" = some ("a", "b") ∧
      processRepoUrl errOracle (Value.str "https://github.com/a/b/c")
        = ["Repository 'https://github.com/a/b/c' is not valid or not found"] := by
  refine ⟨by decide, by decide, by decide⟩

/-- Helper: dropPref succeeds exactly on lists that start with the given
pattern, and returns the remainder. -/
theorem dropPref_eq_some_iff (p : List Char) :
    ∀ l r, dropPref p l = some r ↔ l = p ++ r := by
  induction p with
  | nil => intro l r; simp [dropPref]
  | cons c cs ih =>
    intro l r
    cases l with
    | nil => simp [dropPref]
    | cons d ds =>
      simp only [dropPref, List.cons_append]
      rcases eq_or_ne c d with hcd | hcd
      · subst hcd
        simp [ih]
      · rw [if_neg hcd]
        simp only [List.cons.injEq]
        constructor
        · intro h
          exact Option.noConfusion h
        · rintro ⟨h1, _⟩
          exact absurd h1.symm hcd

/-- Helper: takeWhile over non-slash characters stops exactly at the
first slash. -/
theorem takeWhile_until_slash (xs ys : List Char) (h : ∀ x ∈ xs, x ≠ '/') :
    (xs ++ '/' :: ys).takeWhile (fun c => c != '/') = xs := by
  induction xs with
  | nil => simp [List.takeWhile_cons]
  | cons a as ih =>
    have ha : a ≠ '/' := h a (List.mem_cons_self a as)
    have ih' := ih fun x hx => h x (List.mem_cons_of_mem a hx)
    simp only [List.cons_append, List.takeWhile_cons, bne_iff_ne, ne_eq, ha,
      not_false_eq_true, if_true]
    exact congrArg (a :: ·) ih' 

/-- Helper: dropWhile over non-slash characters keeps the tail from the
first slash on. -/
theorem dropWhile_from_slash (xs ys : List Char) (h : ∀ x ∈ xs, x ≠ '/') :
    (xs ++ '/' :: ys).dropWhile (fun c => c != '/') = '/' :: ys := by
  induction xs with
  | nil => simp [List.dropWhile_cons]
  | cons a as ih =>
    have ha : a ≠ '/' := h a (List.mem_cons_self a as)
    have ih' := ih fun x hx => h x (List.mem_cons_of_mem a hx)
    simp only [List.cons_append, List.dropWhile_cons, bne_iff_ne, ne_eq, ha,
      not_false_eq_true, if_true]
    exact ih' 

/-- Helper: one regex attempt succeeds exactly when the list starts with
the github literal followed by a nonempty slash-free owner, a slash, and
at least one further non-slash character. -/
theorem tryMatchAt_isSome_iff (l : List Char) :
    (tryMatchAt l).isSome = true ↔
      ∃ ow c suf, l = ghLit ++ ow ++ '/' :: c :: suf ∧ ow ≠ [] ∧
        (∀ x ∈ ow, x ≠ '/') ∧ c ≠ '/' := by
  constructor
  · intro h
    simp only [tryMatchAt] at h
    split at h
    · simp at h
    · rename_i rest hdp
      have hl : l = ghLit ++ rest := (dropPref_eq_some_iff ghLit l rest).mp hdp
      split at h
      · simp at h
      · rename_i how
        split at h
        · rename_i r3 hdw
          split at h
          · simp at h
          · rename_i hrp
            have hrest : rest = rest.takeWhile (fun c => c != '/') ++ '/' :: r3 := by
              conv_lhs => rw [← List.takeWhile_append_dropWhile (fun c => c != '/') rest]
              rw [hdw]
            cases hr3 : r3 with
            | nil =>
              rw [hr3] at hrp
              simp at hrp
            | cons c suf =>
              rw [hr3] at hrp
              have hc : c ≠ '/' := by
                intro hcc
                subst hcc
                simp [List.takeWhile_cons] at hrp
              refine ⟨rest.takeWhile (fun c => c != '/'), c, suf, ?_, ?_, ?_, hc⟩
              · rw [hl]
                conv_lhs => rw [hrest, hr3]
                simp [List.append_assoc]
              · intro hnil
                rw [hnil] at how
                simp at how
              · intro x hx
                have hpx := List.mem_takeWhile_imp hx
                simp only [bne_iff_ne, ne_eq] at hpx
                exact hpx
        · simp at h
  · rintro ⟨ow, c, suf, hsplit, hne, hsf, hc⟩
    have hdp : dropPref ghLit l = some (ow ++ '/' :: c :: suf) := by
      rw [dropPref_eq_some_iff]
      rw [hsplit]
      simp [List.append_assoc]
    simp only [tryMatchAt, hdp]
    rw [takeWhile_until_slash ow (c :: suf) hsf, dropWhile_from_slash ow (c :: suf) hsf]
    have h1 : ow.isEmpty = false := by
      cases ow with
      | nil => exact absurd rfl hne
      | cons _ _ => rfl
    rw [h1]
    have h2 : (c != '/') = true := bne_iff_ne.mpr hc
    simp [List.takeWhile_cons, h2]

/-- Helper: the unanchored search succeeds exactly when some start
position admits a regex attempt. -/
theorem matchFrom_isSome_iff (l : List Char) :
    (matchFrom l).isSome = true ↔
      ∃ pre rest, l = pre ++ rest ∧ (tryMatchAt rest).isSome = true := by
  induction l with
  | nil =>
    constructor
    · intro h; simp [matchFrom] at h
    · rintro ⟨pre, rest, hsplit, hs⟩
      have hp : pre = [] := by
        cases pre with
        | nil => rfl
        | cons a as => cases hsplit
      have hr : rest = [] := by
        rw [hp] at hsplit
        exact hsplit.symm
      rw [hr] at hs
      have : (tryMatchAt []).isSome = false := by decide
      rw [this] at hs
      cases hs
  | cons a as ih =>
    simp only [matchFrom]
    cases hta : tryMatchAt (a :: as) with
    | some r =>
      simp only [Option.isSome_some, true_iff]
      exact ⟨[], a :: as, rfl, by rw [hta]; rfl⟩
    | none =>
      simp only
      rw [ih]
      constructor
      · rintro ⟨pre, rest, hsplit, hs⟩
        exact ⟨a :: pre, rest, by rw [List.cons_append, hsplit], hs⟩
      · rintro ⟨pre, rest, hsplit, hs⟩
        cases pre with
        | nil =>
          rw [List.nil_append] at hsplit
          rw [← hsplit, hta] at hs
          cases hs
        | cons b bs =>
          rw [List.cons_append] at hsplit
          injection hsplit with hab hsplit
          exact ⟨bs, rest, hsplit, hs⟩

/-- Helper: the source regex finds a match in s exactly when s contains
the github URL pattern somewhere. -/
theorem matchGithubUrl_isSome_iff (s : String) :
    (matchGithubUrl s).isSome = true ↔ containsGithubPattern s := by
  unfold matchGithubUrl containsGithubPattern
  rw [matchFrom_isSome_iff]
  constructor
  · rintro ⟨pre, rest, hsplit, hsome⟩
    obtain ⟨ow, c, suf, hrest, hne, hsf, hc⟩ := (tryMatchAt_isSome_iff rest).mp hsome
    refine ⟨pre, ow, c, suf, ?_, hne, hsf, hc⟩
    rw [hsplit, hrest]
    simp [List.append_assoc]
  · rintro ⟨pre, ow, c, suf, hsplit, hne, hsf, hc⟩
    refine ⟨pre, ghLit ++ ow ++ '/' :: c :: suf, ?_, ?_⟩
    · rw [hsplit]
      simp [List.append_assoc]
    · exact (tryMatchAt_isSome_iff _).mpr ⟨ow, c, suf, rfl, hne, hsf, hc⟩

/-- C3 (amended): a nonblank string repos entry is accepted (and proceeds
to the existence lookup on the captured owner and .git-stripped repo)
exactly when it CONTAINS, anywhere, a substring of the form
https://github.com/owner/repo with owner and repo segments nonempty and
slash-free; otherwise the check appends exactly the format error. -/
theorem url_check_accepts_iff_contains_pattern (o : Oracle) (s : String)
    (h : jsTrim s ≠ "") :
    ((matchGithubUrl s).isSome = true ↔ containsGithubPattern s) ∧
      (matchGithubUrl s = none →
        processRepoUrl o (Value.str s) = ["Invalid GitHub URL format: '" ++ s ++ "'"]) ∧
      (∀ ow rp, matchGithubUrl s = some (ow, rp) →
        processRepoUrl o (Value.str s) = repoLookup o s ow (stripGitSuffix rp)) := by
  refine ⟨matchGithubUrl_isSome_iff s, ?_, ?_⟩
  · intro hm
    simp [processRepoUrl, h, hm]
  · intro ow rp hm
    simp [processRepoUrl, h, hm]

/-- Witness for C3 at a concrete accepted URL. -/
theorem url_check_accepts_iff_contains_pattern_witness :
    ((matchGithubUrl "https://github.com/a/b").isSome = true ↔
        containsGithubPattern "https://github.com/a/b") ∧
      (matchGithubUrl "https://github.com/a/b" = none →
        processRepoUrl errOracle (Value.str "https://github.com/a/b")
          = ["Invalid GitHub URL format: 'https://github.com/a/b'"]) ∧
      (∀ ow rp, matchGithubUrl "https://github.com/a/b" = some (ow, rp) →
        processRepoUrl errOracle (Value.str "https://github.com/a/b")
          = repoLookup errOracle "https://github.com/a/b" ow (stripGitSuffix rp)) :=
  url_check_accepts_iff_contains_pattern errOracle "https://github.com/a/b" (by decide)

/-- Helper: EVM wallet-address error messages are recognized by the
classifier. -/
theorem isEvmAddrErr_evmErrMsg (a : String) : isEvmAddrErr (evmErrMsg a) = true := by
  unfold isEvmAddrErr strStartsStr evmErrMsg
  rw [ List.isPrefixOf_iff_prefix, String.data_append, String.data_append]
  have h : ("Invalid EVM wallet address: '").data
      = ("Invalid EVM wallet address:").data ++ (" '").data := by decide
  rw [h, List.append_assoc, List.append_assoc]
  exact List.prefix_append _ _

/-- Helper: Flow wallet-address error messages are never classified as
EVM wallet-address errors. -/
theorem isEvmAddrErr_flowErrMsg (a : String) : isEvmAddrErr (flowErrMsg a) = false := by
  unfold isEvmAddrErr strStartsStr flowErrMsg
  by_contra hcon
  rw [Bool.not_eq_false, List.isPrefixOf_iff_prefix] at hcon
  obtain ⟨t, ht⟩ := hcon
  rw [String.data_append, String.data_append] at ht
  have h8 := congrArg (fun l => l[8]?) ht
  simp only at h8
  have hP : (8 : Nat) < ("Invalid EVM wallet address:").data.length := by decide
  have hQ : (8 : Nat) < ("Invalid Flow wallet address: '").data.length := by decide
  have hQa : (8 : Nat) < (("Invalid Flow wallet address: '").data ++ a.data).length := by
    rw [List.length_append]
    exact Nat.lt_of_lt_of_le hQ (Nat.le_add_right _ _)
  rw [List.getElem?_append_left hP, List.getElem?_append_left hQa,
    List.getElem?_append_left hQ] at h8
  have hE : ("Invalid EVM wallet address:").data[8]? = some 'E' := by decide
  have hF : ("Invalid Flow wallet address: '").data[8]? = some 'F' := by decide
  rw [hE, hF] at h8
  exact absurd h8 (by decide)

/-- Helper: filtering a possible flow error for EVM errors yields
nothing. -/
theorem filter_if_flow (b : Bool) (a : String) :
    List.filter isEvmAddrErr (if b = true then [flowErrMsg a] else []) = [] := by
  cases b
  · simp
  · simp [List.filter, isEvmAddrErr_flowErrMsg]

/-- Helper: the flow branch of the wallet check never contributes an EVM
wallet-address error. -/
theorem flowCheckErrors_no_evm_err (w : Value) :
    (flowCheckErrors w).filter isEvmAddrErr = [] := by
  unfold flowCheckErrors
  split
  · split
    · exact filter_if_flow _ _
    · simp
  · simp

/-- C4 (amended): for a wallets record whose evm field is a NONEMPTY
string, the wallet check appends exactly one EVM wallet-address error,
naming the trimmed value, precisely when the trimmed string fails the
0x-plus-40-hex-characters test; an empty evm string is skipped entirely
by the truthiness guard. -/
theorem wallet_evm_error_iff (w : Value) (s : String)
    (h1 : getProp w "evm" = some (Value.str s)) (h2 : s ≠ "") :
    (validateWalletAddresses w).filter isEvmAddrErr
      = if !strStartsStr "0x" (jsTrim s) || (jsTrim s).data.length != 42
            || !hexAddrTest 40 (jsTrim s)
        then [evmErrMsg (jsTrim s)] else [] := by
  unfold validateWalletAddresses
  rw [List.filter_append, flowCheckErrors_no_evm_err, List.append_nil]
  unfold evmCheckErrors
  rw [h1]
  have hs : s.data.isEmpty = false := by
    cases hd : s.data with
    | nil =>
      exact absurd (String.ext (hd.trans (by decide))) h2
    | cons _ _ => rfl
  simp only [hs, Bool.not_false, if_true]
  by_cases hc : (!strStartsStr "0x" (jsTrim s) || (jsTrim s).data.length != 42
      || !hexAddrTest 40 (jsTrim s)) = true
  · rw [if_pos hc]
    simp [List.filter, isEvmAddrErr_evmErrMsg]
  · rw [if_neg hc]
    rfl

/-- Witness for C4 at the spec's example evm value 0x123: the check
appends exactly the one EVM error naming it, and a full run on an
otherwise-valid entry carrying it fails with exactly that error. -/
theorem wallet_evm_error_iff_witness :
    ((validateWalletAddresses (Value.obj [("evm", Value.str "0x123"),
          ("flow", Value.str "0x0000000000000001")])).filter isEvmAddrErr
        = [evmErrMsg "0x123"]) ∧
      validateRegistry okOracle (.ok [entryEvm123]) []
        = ⟨false, [evmErrMsg "0x123"]⟩ := by
  constructor
  · exact (wallet_evm_error_iff
      (Value.obj [("evm", Value.str "0x123"), ("flow", Value.str "0x0000000000000001")])
      "0x123" rfl (by decide)).trans (by decide)
  · decide

/-- Counterexample to C4 as stated: the empty string is a string evm field
that does not match the address shape, yet the wallet check appends no
error at all, because the source guards the check behind JS truthiness. -/
theorem empty_evm_string_skipped :
    validateWalletAddresses (Value.obj [("evm", Value.str "")]) = [] ∧
      hexAddrTest 40 "" = false := by
  constructor <;> decide

end RewtfRegistry
